import Mathlib

/-!
Verification development for the dataset-comparison core of
`src/streamlit_ui.py` (the "Kompare Krafts" reconciliation engine).

The pandas-level code is shallowly embedded:

* a cell value is `Value` (a string, an integer, or the null/missing
  marker, covering pandas `NaN`/`None`);
* a row is an association list from column name to `Value`
  (pandas `Series` indexed by column);
* a keyed dataframe `DF` carries its column list and its rows indexed
  by the synthetic key string, mirroring `df.set_index('__key__')`;
* an unkeyed dataframe `RawDF` (before keying) carries its column list
  and a plain row list, and is what the filter pass operates on;
* fallible pandas operations (`KeyError` on a missing column, `TypeError`
  on an ordering between incompatible types, caught by
  `apply_filters` and turned into `st.error` + `st.stop`) are embedded
  with `Except`, the error value being the offending column name that
  the source interpolates into its message.

Numeric values are embedded as `Int`; `pd.to_numeric` is modelled on
integer literals (floating-point parsing is outside the embedding).
Pandas stringifies a missing value (`float('nan')`) as the literal text
`"nan"`; `strOf Value.null = "nan"` records that sentinel.
-/

/-- Python `str.lower()` on a string, character by character (defined on
the character list so that it evaluates by kernel reduction). -/
def lowerStr (s : String) : String :=
  ⟨s.data.map Char.toLower⟩

/-- Python `str.strip()`: drop leading and trailing whitespace. -/
def trimStr (s : String) : String :=
  ⟨((s.data.dropWhile Char.isWhitespace).reverse.dropWhile Char.isWhitespace).reverse⟩

/-- The numeric value of a non-empty all-digit character list. -/
def digitsVal : List Char → Option Nat
  | [] => none
  | ds =>
    if ds.all Char.isDigit then
      some (ds.foldl (fun acc c => 10 * acc + (c.toNat - 48)) 0)
    else none

/-- Integer parsing on a character list: an optional sign followed by
one or more digits. -/
def intOfChars : List Char → Option Int
  | '-' :: ds => (digitsVal ds).map (fun n => -(n : Int))
  | '+' :: ds => (digitsVal ds).map (fun n => (n : Int))
  | ds => (digitsVal ds).map (fun n => (n : Int))

/-- A scalar cell value: a string, a number, or null/missing
(pandas `NaN`/`None`). -/
inductive Value where
  | str (s : String)
  | num (n : Int)
  | null
deriving DecidableEq, Repr

/-- `pd.isna`: true exactly on the null/missing marker. -/
def Value.isna : Value → Bool
  | .null => true
  | _ => false

/-- Python `str(...)` / pandas `astype(str)` on a cell: a string is
itself, a number prints in decimal, and a missing value prints as the
pandas sentinel `"nan"` (stringified `float('nan')`). -/
def strOf : Value → String
  | .str s => s
  | .num n => toString n
  | .null => "nan"

/-- A row: an ordered mapping from column name to value
(a pandas `Series` indexed by column labels). -/
def Row : Type := List (String × Value)

instance : DecidableEq Row := by unfold Row; infer_instance

/-- `row[col] if col in row else None` (line 147-148 of the source):
look a column up in a row, null when absent. -/
def rowGet (r : Row) (c : String) : Value :=
  match List.lookup c r with
  | some v => v
  | none => Value.null

/-- A keyed dataframe after `set_index('__key__')`: a column list plus
rows indexed by the synthetic key string. -/
structure DF where
  cols : List String
  rows : List (String × Row)
deriving DecidableEq

/-- An unkeyed dataframe, as the filter pass sees it: a column list plus
a plain list of rows. -/
structure RawDF where
  cols : List String
  rows : List Row
deriving DecidableEq

/-- `key in df.index`. -/
def keyMem (df : DF) (k : String) : Bool :=
  (df.rows.map Prod.fst).contains k

/-- `if cs then s else s.lower()`: the case-folding step shared by
`process_key` and `compare_df`. -/
def caseFold (caseSensitive : Bool) (s : String) : String :=
  if caseSensitive then s else lowerStr s

/-- `process_key` (source lines 7-13): stringify the key columns of a
row (`astype(str)`), lower-case every part when `case_sensitive` is
false (`applymap(lambda x: x.lower())`), then join with `'|'`
(`agg('|'.join, axis=1)`). -/
def process_key (row : Row) (key_columns : List String) (case_sensitive : Bool) : String :=
  let key_parts := key_columns.map (fun c => strOf (rowGet row c))
  let key_parts := if case_sensitive then key_parts else key_parts.map lowerStr
  String.intercalate "|" key_parts

/-- Lexicographic comparison of character lists by code point: the
order Python uses on `str`, hence the order pandas sorts string labels
with. -/
def charListLe : List Char → List Char → Bool
  | [], _ => true
  | _ :: _, [] => false
  | a :: as, b :: bs => if a = b then charListLe as bs else decide (a < b)

/-- Python `<=` on strings: code-point lexicographic order. -/
def strLe (a b : String) : Bool :=
  charListLe a.data b.data

/-- `pandas.Index.union` with the default `sort=None` (source line 124
`df1.index.union(df2.index)`, and line 125 for the column union): when
the other index is empty or the two indexes are elementwise equal, the
calling index is returned in its original order; when the calling index
is empty, the other is returned in its original order; otherwise the
union is computed and sorted ascending. Labels here are strings, which
sort in Python string order. The sorting branch deduplicates, matching
pandas on duplicate-free indexes — the source deduplicates both sides
(lines 314-315) before comparing. -/
def indexUnion (a b : List String) : List String :=
  if b = [] ∨ a = b then a
  else if a = [] then b
  else List.insertionSort (fun x y => strLe x y = true) ((a ++ b).dedup)

/-- `pd.Series([None]*len(columns), index=columns)` (source lines
134/141): an all-null row over the given columns. -/
def nullRow (columns : List String) : Row :=
  columns.map (fun c => (c, Value.null))

/-- `df.loc[key]` with the `isinstance(..., DataFrame)` guard taking
`iloc[0]` (source lines 129-141): the first row stored under `key`,
or the all-null row when the key is absent. -/
def locRow (df : DF) (columns : List String) (k : String) : Row :=
  match List.lookup k df.rows with
  | some r => r
  | none => nullRow columns

/-- The per-column change test of `compare_df` (source lines 153-164):
if both sides are null the column contributes no change; otherwise, when
the nullness differs or the raw stringifications differ, the two sides
are rendered with `""` for null, case-folded when `case_sensitive` is
false, and the column is a change exactly when those strings differ. -/
def changedCell (case_sensitive : Bool) (val_old val_new : Value) : Bool :=
  if val_old.isna && val_new.isna then
    false
  else if (val_old.isna != val_new.isna) || (strOf val_old != strOf val_new) then
    let val_old_str := if val_old.isna then "" else strOf val_old
    let val_new_str := if val_new.isna then "" else strOf val_new
    let val_old_str := caseFold case_sensitive val_old_str
    let val_new_str := caseFold case_sensitive val_new_str
    val_old_str != val_new_str
  else
    false

/-- The `changed` flag accumulated over the column loop of `compare_df`
(source lines 144-164). -/
def rowChanged (case_sensitive : Bool) (columns : List String) (row2 row1 : Row) : Bool :=
  columns.foldl (fun changed c => changed || changedCell case_sensitive (rowGet row2 c) (rowGet row1 c)) false

/-- One output record of the difference report: the key, the
`(column, old, new)` cells over the column union, and the change type. -/
structure DiffRow where
  key : String
  cells : List (String × Value × Value)
  changeType : String
deriving DecidableEq

/-- The body of the `for key in keys` loop of `compare_df` (source
lines 128-175): resolve each side's row (all-null when absent), record
every union column's old/new pair, accumulate the `changed` flag, and
classify by the `Added`/`Removed`/`Modified`/`Unchanged` precedence
chain of lines 166-173. -/
def diffRowFor (df1 df2 : DF) (case_sensitive : Bool) (key : String) : DiffRow :=
  let columns := indexUnion df1.cols df2.cols
  let row1 := locRow df1 columns key
  let row2 := locRow df2 columns key
  let cells := columns.map (fun c => (c, (rowGet row2 c, rowGet row1 c)))
  let changed := rowChanged case_sensitive columns row2 row1
  let changeType :=
    if !(keyMem df2 key) then "Added"
    else if !(keyMem df1 key) then "Removed"
    else if changed then "Modified"
    else "Unchanged"
  ⟨key, cells, changeType⟩

/-- `compare_df` (source lines 123-177): one DiffRow for each key of the
sorted union of the two indexes. -/
def compare_df (df1 df2 : DF) (case_sensitive : Bool) : List DiffRow :=
  (indexUnion (df1.rows.map Prod.fst) (df2.rows.map Prod.fst)).map
    (diffRowFor df1 df2 case_sensitive)

/-- `drop_duplicates(subset="__key__", keep="first")` (source lines
314-315), with the set of already-seen keys made explicit. -/
def dropDupAux (seen : List String) : List (String × Row) → List (String × Row)
  | [] => []
  | p :: ps =>
    if seen.contains p.1 then dropDupAux seen ps
    else p :: dropDupAux (p.1 :: seen) ps

/-- `df.drop_duplicates(subset="__key__", keep="first")`: keep only the
first row for each key, in original order. -/
def drop_duplicates (l : List (String × Row)) : List (String × Row) :=
  dropDupAux [] l

/-- A filter tuple `(col, op, val, case_sensitive, use_regex)` as built
by the filter UI (source line 65). -/
structure RowFilter where
  col : String
  op : String
  val : String
  case : Bool
  regex : Bool
deriving DecidableEq

/-- `pd.to_numeric(val, errors='raise')`, modelled on integer literals:
parses the whitespace-trimmed text as an integer, `none` on failure. -/
def parseNum (s : String) : Option Int :=
  intOfChars (trimStr s).data

/-- The value-casting step of `apply_filters` (source lines 75-78):
`val_casted` is the parsed number when the text is numeric, otherwise
the stripped text. -/
def castVal (val : String) : Value :=
  match parseNum val with
  | some n => Value.num n
  | none => Value.str (trimStr val)

/-- Pandas elementwise `==` between a cell and the casted filter value:
equal numbers or equal strings compare true; a null cell or a type
mismatch compares false (no exception). -/
def valEq : Value → Value → Bool
  | .num a, .num b => a == b
  | .str a, .str b => a == b
  | _, _ => false

/-- Pandas elementwise ordering between a cell and the casted filter
value, for a strict-less test: numbers compare numerically, strings
lexicographically; a null cell against a number compares false (NaN
semantics); any string/number mix raises `TypeError`
(`Except.error ()`). -/
def valLt : Value → Value → Except Unit Bool
  | .num a, .num b => .ok (decide (a < b))
  | .str a, .str b => .ok (decide (a < b))
  | .null, .num _ => .ok false
  | _, _ => .error ()

/-- Pandas elementwise strict-greater, with the same error cases as
`valLt`. -/
def valGt : Value → Value → Except Unit Bool
  | .num a, .num b => .ok (decide (a > b))
  | .str a, .str b => .ok (decide (a > b))
  | .null, .num _ => .ok false
  | _, _ => .error ()

/-- Pandas elementwise `>=`, with the same error cases as `valLt`. -/
def valGe : Value → Value → Except Unit Bool
  | .num a, .num b => .ok (decide (a ≥ b))
  | .str a, .str b => .ok (decide (a ≥ b))
  | .null, .num _ => .ok false
  | _, _ => .error ()

/-- Pandas elementwise `<=`, with the same error cases as `valLt`. -/
def valLe : Value → Value → Except Unit Bool
  | .num a, .num b => .ok (decide (a ≤ b))
  | .str a, .str b => .ok (decide (a ≤ b))
  | .null, .num _ => .ok false
  | _, _ => .error ()

/-- Substring search on character lists: does the pattern occur
contiguously in the text (Python `pat in s`)? -/
def hasSub (pat : List Char) : List Char → Bool
  | [] => pat.isEmpty
  | c :: cs => pat.isPrefixOf (c :: cs) || hasSub pat cs

/-- `df[col].astype(str).str.contains(pat, na=False, case=case, ...)`
restricted to `regex=False`: substring containment, case-folding both
operands when `case` is false. Regex matching is not embedded; every
theorem about `contains` fixes `use_regex = false`. -/
def strTestContains (s pat : String) (case : Bool) : Bool :=
  if case then hasSub pat.data s.data
  else hasSub (lowerStr pat).data (lowerStr s).data

/-- Filter a row list through an `Except`-valued predicate: the whole
column comparison either succeeds for every row or the operation fails
(pandas evaluates the full boolean column before masking). -/
def exceptFilter (p : Row → Except Unit Bool) : List Row → Except Unit (List Row)
  | [] => .ok []
  | r :: rs =>
    match p r with
    | .error e => .error e
    | .ok b =>
      match exceptFilter p rs with
      | .error e => .error e
      | .ok rest => .ok (if b then r :: rest else rest)

/-- One iteration of the `apply_filters` loop (source lines 70-100):
a missing column (`KeyError` from `df[col]`) or a `TypeError` from an
ordering operator is caught, reported with the offending column name
(`st.error(f"... column '{col}' ...")`), and the run stops (`st.stop`);
the error value is that column name. An operator string outside the
eight known ones leaves the dataframe unchanged, as the `if`/`elif`
chain does. -/
def applyFilter (df : RawDF) (f : RowFilter) : Except String RawDF :=
  if !(df.cols.contains f.col) then .error f.col
  else
    let val_casted := castVal f.val
    match f.op with
    | "==" => .ok ⟨df.cols, df.rows.filter (fun r => valEq (rowGet r f.col) val_casted)⟩
    | "!=" => .ok ⟨df.cols, df.rows.filter (fun r => !(valEq (rowGet r f.col) val_casted))⟩
    | ">" =>
      match exceptFilter (fun r => valGt (rowGet r f.col) val_casted) df.rows with
      | .ok rows => .ok ⟨df.cols, rows⟩
      | .error _ => .error f.col
    | ">=" =>
      match exceptFilter (fun r => valGe (rowGet r f.col) val_casted) df.rows with
      | .ok rows => .ok ⟨df.cols, rows⟩
      | .error _ => .error f.col
    | "<" =>
      match exceptFilter (fun r => valLt (rowGet r f.col) val_casted) df.rows with
      | .ok rows => .ok ⟨df.cols, rows⟩
      | .error _ => .error f.col
    | "<=" =>
      match exceptFilter (fun r => valLe (rowGet r f.col) val_casted) df.rows with
      | .ok rows => .ok ⟨df.cols, rows⟩
      | .error _ => .error f.col
    | "contains" =>
      .ok ⟨df.cols, df.rows.filter (fun r => strTestContains (strOf (rowGet r f.col)) (strOf val_casted) f.case)⟩
    | "not contains" =>
      .ok ⟨df.cols, df.rows.filter (fun r => !(strTestContains (strOf (rowGet r f.col)) (strOf val_casted) f.case))⟩
    | _ => .ok df

/-- `apply_filters` (source lines 69-102): fold the filters over the
dataframe, aborting the whole run at the first failure. -/
def apply_filters (df : RawDF) (filters : List RowFilter) : Except String RawDF :=
  filters.foldlM applyFilter df

example : process_key [("id", .num 1), ("name", .str "Bob")] ["id", "name"] false = "1|bob" := by
  decide

example : changedCell true Value.null (Value.str "") = false := by decide

example : strOf (castVal "007") = "7" := by decide

/-! ### Concrete data used by witnesses and counterexamples -/

/-- A sample row `{id: 1, name: "Bob"}`. -/
def wRow : Row := [("id", Value.num 1), ("name", Value.str "Bob")]

/-- Keyed main dataset `[{id:"1", name:"bob"}]` under key `"1"`. -/
def dfBobMain : DF := ⟨["id", "name"], [("1", [("id", Value.str "1"), ("name", Value.str "bob")])]⟩

/-- Keyed secondary dataset `[{id:"1", name:"Bob"}]` under key `"1"`. -/
def dfBobSec : DF := ⟨["id", "name"], [("1", [("id", Value.str "1"), ("name", Value.str "Bob")])]⟩

/-- An empty keyed dataset over columns `id`, `name`. -/
def dfEmpty : DF := ⟨["id", "name"], []⟩

/-- Keyed main dataset whose `x` cell is the empty string. -/
def dfEmptyStrNew : DF := ⟨["id", "x"], [("1", [("id", Value.str "1"), ("x", Value.str "")])]⟩

/-- Keyed secondary dataset whose `x` cell is null. -/
def dfNullOld : DF := ⟨["id", "x"], [("1", [("id", Value.str "1"), ("x", Value.null)])]⟩

/-- A keyed dataset with rows under keys `"a"` then `"b"`. -/
def dfTwo : DF := ⟨["id"], [("a", [("id", Value.str "a")]), ("b", [("id", Value.str "b")])]⟩

/-- The same rows as `dfTwo` in the opposite order. -/
def dfTwoRev : DF := ⟨["id"], [("b", [("id", Value.str "b")]), ("a", [("id", Value.str "a")])]⟩

/-- An empty keyed dataset over the single column `id`. -/
def dfEmptyId : DF := ⟨["id"], []⟩

/-- A keyed row list with two rows sharing the key `"1"`. -/
def wDup : List (String × Row) :=
  [("1", [("id", Value.str "1"), ("name", Value.str "first")]),
   ("1", [("id", Value.str "1"), ("name", Value.str "second")])]

/-- The report row produced for key `"1"` when comparing `dfBobMain`
against the empty secondary dataset. -/
def wAdded : DiffRow :=
  ⟨"1", [("id", (Value.null, Value.str "1")), ("name", (Value.null, Value.str "bob"))], "Added"⟩

/-- An unkeyed dataset with one string cell and one numeric cell in
column `a`. -/
def rdfMixed : RawDF := ⟨["a"], [[("a", Value.str "x")], [("a", Value.num 7)]]⟩

/-- An unkeyed dataset whose single `a` cell is null. -/
def rdfNull : RawDF := ⟨["a"], [[("a", Value.null)]]⟩

/-! ### Helper lemmas -/

theorem charListLe_total : ∀ a b : List Char, charListLe a b = true ∨ charListLe b a = true
  | [], _ => Or.inl rfl
  | _ :: _, [] => Or.inr rfl
  | x :: xs, y :: ys => by
    by_cases hxy : x = y
    · subst hxy
      simpa [charListLe] using charListLe_total xs ys
    · rcases lt_or_gt_of_ne hxy with h | h
      · left
        simp [charListLe, hxy, h]
      · right
        simp [charListLe, Ne.symm hxy, h]

theorem charListLe_trans : ∀ a b c : List Char,
    charListLe a b = true → charListLe b c = true → charListLe a c = true
  | [], _, _, _, _ => rfl
  | _ :: _, [], _, h1, _ => by simp [charListLe] at h1
  | _ :: _, _ :: _, [], _, h2 => by simp [charListLe] at h2
  | x :: xs, y :: ys, z :: zs, h1, h2 => by
    by_cases hxy : x = y <;> by_cases hyz : y = z
    · subst hxy; subst hyz
      simp only [charListLe, if_pos rfl] at h1 h2 ⊢
      exact charListLe_trans xs ys zs h1 h2
    · subst hxy
      simp only [charListLe, if_pos rfl, if_neg hyz, decide_eq_true_eq] at h2 ⊢
      simp [charListLe, hyz, h2]
    · subst hyz
      simp only [charListLe, if_neg hxy, decide_eq_true_eq] at h1
      simp [charListLe, hxy, h1]
    · simp only [charListLe, if_neg hxy, if_neg hyz, decide_eq_true_eq] at h1 h2
      have hxz : x < z := lt_trans h1 h2
      simp [charListLe, ne_of_lt hxz, hxz]

theorem charListLe_antisymm : ∀ a b : List Char,
    charListLe a b = true → charListLe b a = true → a = b
  | [], [], _, _ => rfl
  | [], _ :: _, _, h2 => by simp [charListLe] at h2
  | _ :: _, [], h1, _ => by simp [charListLe] at h1
  | x :: xs, y :: ys, h1, h2 => by
    by_cases hxy : x = y
    · subst hxy
      simp only [charListLe, if_pos rfl] at h1 h2
      rw [charListLe_antisymm xs ys h1 h2]
    · simp only [charListLe, if_neg hxy, if_neg (Ne.symm hxy), decide_eq_true_eq] at h1 h2
      exact absurd h2 (not_lt_of_gt h1)

instance : IsTotal String (fun x y => strLe x y = true) :=
  ⟨fun a b => charListLe_total a.data b.data⟩

instance : IsTrans String (fun x y => strLe x y = true) :=
  ⟨fun a b c => charListLe_trans a.data b.data c.data⟩

instance : IsAntisymm String (fun x y => strLe x y = true) :=
  ⟨fun a b h1 h2 => by
    cases a; cases b
    exact congrArg String.mk (charListLe_antisymm _ _ h1 h2)⟩

theorem mem_indexUnion {a b : List String} {k : String} :
    k ∈ indexUnion a b ↔ k ∈ a ∨ k ∈ b := by
  unfold indexUnion
  split
  · rename_i h
    rcases h with h | h
    · subst h
      simp
    · subst h
      simp
  · split
    · rename_i h2
      subst h2
      simp
    · rw [List.mem_insertionSort, List.mem_dedup, List.mem_append]

theorem nodup_indexUnion {a b : List String} (ha : a.Nodup) (hb : b.Nodup) :
    (indexUnion a b).Nodup := by
  unfold indexUnion
  split
  · exact ha
  · split
    · exact hb
    · exact ((List.perm_insertionSort _ _).nodup_iff).mpr (List.nodup_dedup _)

theorem sorted_indexUnion_of_ne {a b : List String}
    (ha : a ≠ []) (hb : b ≠ []) (hab : a ≠ b) :
    List.Sorted (fun x y => strLe x y = true) (indexUnion a b) := by
  unfold indexUnion
  rw [if_neg (not_or.mpr ⟨hb, hab⟩), if_neg ha]
  exact List.sorted_insertionSort _ _

theorem length_indexUnion_nodup {a b : List String} (ha : a.Nodup) (hb : b.Nodup) :
    (indexUnion a b).length = (a.toFinset ∪ b.toFinset).card := by
  unfold indexUnion
  split
  · rename_i h
    rcases h with h | h
    · subst h
      simp [List.card_toFinset, List.dedup_eq_self.mpr ha]
    · subst h
      simp [List.card_toFinset, List.dedup_eq_self.mpr ha]
  · split
    · rename_i h2
      subst h2
      simp [List.card_toFinset, List.dedup_eq_self.mpr hb]
    · rw [(List.perm_insertionSort _ _).length_eq, ← List.card_toFinset]
      congr 1
      simp

theorem indexUnion_perm_of_ne {a a' b b' : List String}
    (ha' : a' ≠ []) (hb' : b' ≠ []) (hab' : a' ≠ b')
    (ha : a ≠ []) (hb : b ≠ []) (hab : a ≠ b)
    (pa : List.Perm a' a) (pb : List.Perm b' b) :
    indexUnion a' b' = indexUnion a b := by
  unfold indexUnion
  rw [if_neg (not_or.mpr ⟨hb', hab'⟩), if_neg ha',
    if_neg (not_or.mpr ⟨hb, hab⟩), if_neg ha]
  refine List.eq_of_perm_of_sorted ?_
    (List.sorted_insertionSort _ _) (List.sorted_insertionSort _ _)
  exact ((List.perm_insertionSort _ _).trans ((pa.append pb).dedup)).trans
    (List.perm_insertionSort _ _).symm

theorem lookup_isSome_iff {β : Type} (k : String) (l : List (String × β)) :
    (List.lookup k l).isSome = true ↔ k ∈ l.map Prod.fst := by
  induction l with
  | nil => simp [List.lookup]
  | cons p ps ih =>
    rw [List.lookup]
    cases hpk : k == p.1 with
    | true =>
      have hk : k = p.1 := by simpa using hpk
      simp [hk]
    | false =>
      have hk : ¬ k = p.1 := by simpa using hpk
      simp [hk, ih]

theorem keyMem_iff {df : DF} {k : String} :
    keyMem df k = true ↔ k ∈ df.rows.map Prod.fst :=
  List.elem_iff

theorem foldl_or_eq_any {α : Type} (f : α → Bool) (l : List α) (init : Bool) :
    l.foldl (fun acc c => acc || f c) init = (init || l.any f) := by
  induction l generalizing init with
  | nil => simp
  | cons x xs ih => simp [List.foldl_cons, ih, Bool.or_assoc]

theorem rowChanged_eq_any (cs : Bool) (cols : List String) (r2 r1 : Row) :
    rowChanged cs cols r2 r1 =
      cols.any (fun c => changedCell cs (rowGet r2 c) (rowGet r1 c)) := by
  simp [rowChanged, foldl_or_eq_any]

theorem diffRowFor_key (df1 df2 : DF) (cs : Bool) (k : String) :
    (diffRowFor df1 df2 cs k).key = k := rfl

theorem diffRowFor_changeType (df1 df2 : DF) (cs : Bool) (k : String) :
    (diffRowFor df1 df2 cs k).changeType =
      (if !(keyMem df2 k) then "Added"
       else if !(keyMem df1 k) then "Removed"
       else if rowChanged cs (indexUnion df1.cols df2.cols)
           (locRow df2 (indexUnion df1.cols df2.cols) k)
           (locRow df1 (indexUnion df1.cols df2.cols) k) then "Modified"
       else "Unchanged") := rfl

theorem compare_df_map_key (df1 df2 : DF) (cs : Bool) :
    (compare_df df1 df2 cs).map DiffRow.key =
      indexUnion (df1.rows.map Prod.fst) (df2.rows.map Prod.fst) := by
  rw [compare_df, List.map_map]
  exact List.map_id'' (fun k => rfl) _

theorem mem_compare_iff {df1 df2 : DF} {cs : Bool} {dr : DiffRow} :
    dr ∈ compare_df df1 df2 cs ↔
      ∃ k, k ∈ indexUnion (df1.rows.map Prod.fst) (df2.rows.map Prod.fst) ∧
        dr = diffRowFor df1 df2 cs k := by
  simp only [compare_df, List.mem_map]
  constructor
  · rintro ⟨k, hk, rfl⟩
    exact ⟨k, hk, rfl⟩
  · rintro ⟨k, hk, rfl⟩
    exact ⟨k, hk, rfl⟩

theorem dropDupAux_sublist (seen : List String) (l : List (String × Row)) :
    List.Sublist (dropDupAux seen l) l := by
  induction l generalizing seen with
  | nil => simp [dropDupAux]
  | cons p ps ih =>
    rw [dropDupAux]
    split
    · exact (ih seen).cons p
    · exact (ih (p.1 :: seen)).cons₂ p

theorem dropDupAux_lookup (seen : List String) (l : List (String × Row)) (k : String)
    (hk : seen.contains k = false) :
    List.lookup k (dropDupAux seen l) = List.lookup k l := by
  induction l generalizing seen with
  | nil => rfl
  | cons p ps ih =>
    rw [dropDupAux]
    split
    · rename_i hmem
      have hne : ¬ (k = p.1) := by
        intro h
        rw [h] at hk
        rw [hk] at hmem
        exact Bool.false_ne_true hmem
      have hbeq : (k == p.1) = false := beq_eq_false_iff_ne.mpr hne
      rw [List.lookup, hbeq, ih seen hk]
    · rename_i hmem
      cases hbeq : (k == p.1) with
      | true => rw [List.lookup, hbeq, List.lookup, hbeq]
      | false =>
        have hk' : (p.1 :: seen).contains k = false := by
          simp only [List.contains_cons, Bool.or_eq_false_iff]
          exact ⟨hbeq, hk⟩
        rw [List.lookup, hbeq, List.lookup, hbeq, ih (p.1 :: seen) hk']

theorem dropDupAux_nodup (seen : List String) (l : List (String × Row)) :
    ((dropDupAux seen l).map Prod.fst).Nodup ∧
    ∀ k ∈ (dropDupAux seen l).map Prod.fst, seen.contains k = false := by
  induction l generalizing seen with
  | nil => simp [dropDupAux]
  | cons p ps ih =>
    rw [dropDupAux]
    split
    · exact ih seen
    · rename_i hmem
      have hmem' : seen.contains p.1 = false := by simpa using hmem
      obtain ⟨hnd, hinv⟩ := ih (p.1 :: seen)
      constructor
      · refine List.nodup_cons.mpr ⟨?_, hnd⟩
        intro hcontra
        have := hinv p.1 hcontra
        simp [List.contains] at this
      · intro k hkmem
        rcases List.mem_cons.mp hkmem with h | h
        · rw [h]; exact hmem'
        · have := hinv k h
          simp only [List.contains_cons, Bool.or_eq_false_iff] at this
          exact this.2

/-- C6: `drop_duplicates(subset="__key__", keep="first")` keeps, for
every key, exactly the first row carrying that key, in original order;
every later row with the same key is dropped, silently (the operation is
total), and every key of the input survives. -/
theorem drop_duplicates_first_wins (l : List (String × Row)) :
    List.Sublist (drop_duplicates l) l ∧
    ((drop_duplicates l).map Prod.fst).Nodup ∧
    (∀ k : String, k ∈ l.map Prod.fst → k ∈ (drop_duplicates l).map Prod.fst) ∧
    (∀ k : String, List.lookup k (drop_duplicates l) = List.lookup k l) := by
  have hlook : ∀ k : String, List.lookup k (drop_duplicates l) = List.lookup k l :=
    fun k => dropDupAux_lookup [] l k rfl
  refine ⟨dropDupAux_sublist [] l, (dropDupAux_nodup [] l).1, ?_, hlook⟩
  intro k hk
  rw [← lookup_isSome_iff] at hk ⊢
  rw [hlook k]
  exact hk

/-- Witness for C6: on two rows sharing key `"1"`, the key survives
deduplication (with, by the lookup conjunct, the first row). -/
theorem drop_duplicates_first_wins_witness :
    "1" ∈ (drop_duplicates wDup).map Prod.fst :=
  (drop_duplicates_first_wins wDup).2.2.1 "1" (by decide)

/-- C4: the key builder joins the stringified key-column values in
order with the delimiter `"|"`; when the case-sensitivity flag is false
every part is lower-cased before joining; a missing value is rendered as
the consistent sentinel `"nan"` (pandas stringified `NaN`). -/
theorem process_key_spec (row : Row) (key_columns : List String) (cs : Bool)
    (_hne : key_columns ≠ []) :
    process_key row key_columns cs =
      String.intercalate "|"
        (key_columns.map (fun c => caseFold cs (strOf (rowGet row c)))) ∧
    strOf Value.null = "nan" := by
  refine ⟨?_, rfl⟩
  cases cs with
  | true => simp [process_key, caseFold]
  | false => simp [process_key, caseFold, List.map_map, Function.comp_def]

/-- Witness for C4 at the row `{id: 1, name: "Bob"}` with the flag
false. -/
theorem process_key_spec_witness :
    (["id", "name"] : List String) ≠ [] ∧
    (process_key wRow ["id", "name"] false =
       String.intercalate "|"
         ((["id", "name"] : List String).map (fun c => caseFold false (strOf (rowGet wRow c)))) ∧
     strOf Value.null = "nan") :=
  ⟨by decide, process_key_spec wRow ["id", "name"] false (by decide)⟩

theorem changeType_eq_modified {df1 df2 : DF} {cs : Bool} {dr : DiffRow}
    (h : dr ∈ compare_df df1 df2 cs)
    (h2 : keyMem df2 dr.key = true) (h1 : keyMem df1 dr.key = true)
    (hch : rowChanged cs (indexUnion df1.cols df2.cols)
      (locRow df2 (indexUnion df1.cols df2.cols) dr.key)
      (locRow df1 (indexUnion df1.cols df2.cols) dr.key) = true) :
    dr.changeType = "Modified" := by
  obtain ⟨k, hk, rfl⟩ := mem_compare_iff.mp h
  rw [diffRowFor_key] at h1 h2 hch
  rw [diffRowFor_changeType, h1, h2, hch]
  simp

/-- C2: every report row's ChangeType follows the
Added/Removed/Modified/Unchanged precedence in that exact order; the
guards cover every key of the union (the row's key lies in at least one
index, so `Added` can only fire for keys of the main index), exclude one
another by construction, and each row carries exactly one of the four
labels. -/
theorem changeType_precedence (df1 df2 : DF) (cs : Bool) (dr : DiffRow)
    (h : dr ∈ compare_df df1 df2 cs) :
    (keyMem df1 dr.key = true ∨ keyMem df2 dr.key = true) ∧
    (keyMem df2 dr.key = false → dr.changeType = "Added") ∧
    (keyMem df2 dr.key = true → keyMem df1 dr.key = false → dr.changeType = "Removed") ∧
    (keyMem df2 dr.key = true → keyMem df1 dr.key = true →
      rowChanged cs (indexUnion df1.cols df2.cols)
        (locRow df2 (indexUnion df1.cols df2.cols) dr.key)
        (locRow df1 (indexUnion df1.cols df2.cols) dr.key) = true →
      dr.changeType = "Modified") ∧
    (keyMem df2 dr.key = true → keyMem df1 dr.key = true →
      rowChanged cs (indexUnion df1.cols df2.cols)
        (locRow df2 (indexUnion df1.cols df2.cols) dr.key)
        (locRow df1 (indexUnion df1.cols df2.cols) dr.key) = false →
      dr.changeType = "Unchanged") ∧
    (dr.changeType = "Added" ∨ dr.changeType = "Removed" ∨
     dr.changeType = "Modified" ∨ dr.changeType = "Unchanged") := by
  obtain ⟨k, hk, rfl⟩ := mem_compare_iff.mp h
  simp only [diffRowFor_key, diffRowFor_changeType]
  refine ⟨?_, ?_, ?_, ?_, ?_, ?_⟩
  · rcases mem_indexUnion.mp hk with h1 | h1
    · exact Or.inl (keyMem_iff.mpr h1)
    · exact Or.inr (keyMem_iff.mpr h1)
  · intro h2
    simp [h2]
  · intro h2 h1
    simp [h2, h1]
  · intro h2 h1 hch
    simp [h2, h1, hch]
  · intro h2 h1 hch
    simp [h2, h1, hch]
  · cases h2 : keyMem df2 k <;> cases h1 : keyMem df1 k <;>
      cases hch : rowChanged cs (indexUnion df1.cols df2.cols)
        (locRow df2 (indexUnion df1.cols df2.cols) k)
        (locRow df1 (indexUnion df1.cols df2.cols) k) <;>
      simp [h2, h1, hch]

/-- Witness for C2: the single-row comparison of `dfBobMain` against the
empty secondary dataset classifies its row `Added`. -/
theorem changeType_precedence_witness : wAdded.changeType = "Added" :=
  (changeType_precedence dfBobMain dfEmpty true wAdded (by decide)).2.1 (by decide)

/-- C3: for deduplicated keyed datasets (distinct keys on each side,
which `drop_duplicates` guarantees in the source), the diff report has
exactly one row per key present in either dataset: its length is the
cardinality of the set union of the two key sets, every such key appears
in exactly one report row, and every report row's key is such a key. -/
theorem report_covers_union (df1 df2 : DF) (cs : Bool)
    (h1 : (df1.rows.map Prod.fst).Nodup) (h2 : (df2.rows.map Prod.fst).Nodup) :
    (compare_df df1 df2 cs).length =
      ((df1.rows.map Prod.fst).toFinset ∪ (df2.rows.map Prod.fst).toFinset).card ∧
    (∀ k : String, k ∈ df1.rows.map Prod.fst ∨ k ∈ df2.rows.map Prod.fst →
      ((compare_df df1 df2 cs).map DiffRow.key).count k = 1) ∧
    (∀ dr ∈ compare_df df1 df2 cs,
      dr.key ∈ df1.rows.map Prod.fst ∨ dr.key ∈ df2.rows.map Prod.fst) := by
  have hkeys := compare_df_map_key df1 df2 cs
  refine ⟨?_, ?_, ?_⟩
  · have hlen : (compare_df df1 df2 cs).length =
        ((compare_df df1 df2 cs).map DiffRow.key).length := (List.length_map _ _).symm
    rw [hlen, hkeys]
    exact length_indexUnion_nodup h1 h2
  · intro k hk
    rw [hkeys]
    exact List.count_eq_one_of_mem (nodup_indexUnion h1 h2) (mem_indexUnion.mpr hk)
  · intro dr hdr
    obtain ⟨k, hk, rfl⟩ := mem_compare_iff.mp hdr
    rw [diffRowFor_key]
    exact mem_indexUnion.mp hk

/-- Witness for C3: in the comparison of `dfBobMain` against the empty
secondary dataset, key `"1"` appears in exactly one report row. -/
theorem report_covers_union_witness :
    ((compare_df dfBobMain dfEmpty true).map DiffRow.key).count "1" = 1 :=
  (report_covers_union dfBobMain dfEmpty true (by decide) (by decide)).2.1 "1"
    (Or.inl (by decide))

/-- Counterexample to C9 as stated: with an empty secondary dataset,
`pandas.Index.union` returns the main index in its original order (the
no-sort shortcut of `sort=None`), so the report follows the main
dataset's row order: for main keys `["b", "a"]` the report keys are
`["b", "a"]`, which is not sorted, and permuting the main rows to
`["a", "b"]` changes the report's enumeration. -/
theorem report_order_cex :
    (compare_df dfTwoRev dfEmptyId true).map DiffRow.key = ["b", "a"] ∧
    ¬ List.Sorted (fun x y => strLe x y = true)
        ((compare_df dfTwoRev dfEmptyId true).map DiffRow.key) ∧
    List.Perm (dfTwo.rows.map Prod.fst) (dfTwoRev.rows.map Prod.fst) ∧
    (compare_df dfTwo dfEmptyId true).map DiffRow.key = ["a", "b"] := by
  refine ⟨by decide, ?_, by decide, by decide⟩
  have hk : (compare_df dfTwoRev dfEmptyId true).map DiffRow.key = ["b", "a"] := by decide
  rw [hk]
  intro hs
  exact absurd ((List.sorted_cons.mp hs).1 "a" (by simp)) (by decide)

/-- C9 amended: the report's key enumeration is the pandas index union
of the two key sequences, hence a deterministic function of them. When
the secondary key sequence is empty or the two key sequences are equal
it follows the main dataset's original row order; when only the main
key sequence is empty it follows the secondary's row order; in all
other cases it is sorted ascending and invariant under permuting either
input's rows (as long as the permuted inputs also avoid the no-sort
shortcut cases). -/
theorem report_keys_order (df1 df2 : DF) (cs : Bool) :
    ((compare_df df1 df2 cs).map DiffRow.key =
      indexUnion (df1.rows.map Prod.fst) (df2.rows.map Prod.fst)) ∧
    (df2.rows.map Prod.fst = [] ∨ df1.rows.map Prod.fst = df2.rows.map Prod.fst →
      (compare_df df1 df2 cs).map DiffRow.key = df1.rows.map Prod.fst) ∧
    (df1.rows.map Prod.fst = [] → df1.rows.map Prod.fst ≠ df2.rows.map Prod.fst →
      (compare_df df1 df2 cs).map DiffRow.key = df2.rows.map Prod.fst) ∧
    (df1.rows.map Prod.fst ≠ [] → df2.rows.map Prod.fst ≠ [] →
      df1.rows.map Prod.fst ≠ df2.rows.map Prod.fst →
      List.Sorted (fun x y => strLe x y = true)
        ((compare_df df1 df2 cs).map DiffRow.key)) ∧
    (∀ df1' df2' : DF,
      df1.rows.map Prod.fst ≠ [] → df2.rows.map Prod.fst ≠ [] →
      df1.rows.map Prod.fst ≠ df2.rows.map Prod.fst →
      df1'.rows.map Prod.fst ≠ [] → df2'.rows.map Prod.fst ≠ [] →
      df1'.rows.map Prod.fst ≠ df2'.rows.map Prod.fst →
      List.Perm (df1'.rows.map Prod.fst) (df1.rows.map Prod.fst) →
      List.Perm (df2'.rows.map Prod.fst) (df2.rows.map Prod.fst) →
      (compare_df df1' df2' cs).map DiffRow.key =
        (compare_df df1 df2 cs).map DiffRow.key) := by
  have hkeys := compare_df_map_key df1 df2 cs
  refine ⟨hkeys, ?_, ?_, ?_, ?_⟩
  · intro h
    rw [hkeys]
    unfold indexUnion
    rw [if_pos h]
  · intro h1 hne
    rw [hkeys]
    unfold indexUnion
    have hcond : ¬(df2.rows.map Prod.fst = [] ∨
        df1.rows.map Prod.fst = df2.rows.map Prod.fst) := by
      rintro (h | h)
      · exact hne (h1.trans h.symm)
      · exact hne h
    rw [if_neg hcond, if_pos h1]
  · intro ha hb hab
    rw [hkeys]
    exact sorted_indexUnion_of_ne ha hb hab
  · intro df1' df2' ha hb hab ha' hb' hab' pa pb
    rw [compare_df_map_key, compare_df_map_key]
    exact indexUnion_perm_of_ne ha' hb' hab' ha hb hab pa pb

/-- Witness for the amended C9: both inputs away from the shortcut
cases, reversing the main input's row order leaves the report's key
enumeration unchanged. -/
theorem report_keys_order_witness :
    (compare_df dfTwoRev dfBobMain true).map DiffRow.key =
      (compare_df dfTwo dfBobMain true).map DiffRow.key :=
  (report_keys_order dfTwo dfBobMain true).2.2.2.2 dfTwoRev dfBobMain
    (by decide) (by decide) (by decide) (by decide) (by decide) (by decide)
    (by decide) (by decide)

theorem caseFold_empty (cs : Bool) : caseFold cs "" = "" := by
  cases cs <;> rfl

/-- C5: with case-insensitive comparison, a key present in both datasets
whose per-column value pairs are each either both null or both non-null
with equal lower-cased stringifications is classified `Unchanged`; the
report contains such a row for that key. -/
theorem caseInsensitive_unchanged (df1 df2 : DF) (k : String)
    (h1 : keyMem df1 k = true) (h2 : keyMem df2 k = true)
    (hcols : ∀ c ∈ indexUnion df1.cols df2.cols,
      (Value.isna (rowGet (locRow df2 (indexUnion df1.cols df2.cols) k) c) = true ∧
       Value.isna (rowGet (locRow df1 (indexUnion df1.cols df2.cols) k) c) = true) ∨
      (Value.isna (rowGet (locRow df2 (indexUnion df1.cols df2.cols) k) c) = false ∧
       Value.isna (rowGet (locRow df1 (indexUnion df1.cols df2.cols) k) c) = false ∧
       lowerStr (strOf (rowGet (locRow df2 (indexUnion df1.cols df2.cols) k) c)) =
         lowerStr (strOf (rowGet (locRow df1 (indexUnion df1.cols df2.cols) k) c)))) :
    (∃ dr ∈ compare_df df1 df2 false, dr.key = k ∧ dr.changeType = "Unchanged") ∧
    (∀ dr ∈ compare_df df1 df2 false, dr.key = k → dr.changeType = "Unchanged") := by
  have hch : rowChanged false (indexUnion df1.cols df2.cols)
      (locRow df2 (indexUnion df1.cols df2.cols) k)
      (locRow df1 (indexUnion df1.cols df2.cols) k) = false := by
    rw [rowChanged_eq_any]
    rw [List.any_eq_false]
    intro c hc
    rcases hcols c hc with ⟨ho, hn⟩ | ⟨ho, hn, heq⟩
    · simp [changedCell, ho, hn]
    · by_cases hs : strOf (rowGet (locRow df2 (indexUnion df1.cols df2.cols) k) c) =
          strOf (rowGet (locRow df1 (indexUnion df1.cols df2.cols) k) c)
      · simp [changedCell, ho, hn, hs]
      · simp [changedCell, ho, hn, hs, caseFold, heq]
  have hct : (diffRowFor df1 df2 false k).changeType = "Unchanged" := by
    rw [diffRowFor_changeType, h1, h2, hch]
    simp
  have hmem : diffRowFor df1 df2 false k ∈ compare_df df1 df2 false := by
    apply mem_compare_iff.mpr
    refine ⟨k, mem_indexUnion.mpr (Or.inl (keyMem_iff.mp h1)), rfl⟩
  constructor
  · exact ⟨diffRowFor df1 df2 false k, hmem, diffRowFor_key df1 df2 false k, hct⟩
  · intro dr hdr hkey
    obtain ⟨k', hk', rfl⟩ := mem_compare_iff.mp hdr
    rw [diffRowFor_key] at hkey
    rw [hkey]
    exact hct

/-- Witness for C5: main name `"bob"` against secondary name `"Bob"`
with case-insensitive comparison classifies key `"1"` as `Unchanged`. -/
theorem caseInsensitive_unchanged_witness :
    ∃ dr ∈ compare_df dfBobMain dfBobSec false, dr.key = "1" ∧ dr.changeType = "Unchanged" :=
  (caseInsensitive_unchanged dfBobMain dfBobSec "1" (by decide) (by decide) (by decide)).1

/-- Counterexample to C1 as stated: in the comparison of
`dfEmptyStrNew` (new `x` cell is the empty string) against `dfNullOld`
(old `x` cell is null), the key `"1"` is present on both sides and the
`x` column's difference is one-sided nullness, yet the cell-level test
reports no change and the row classifies `Unchanged`, not `Modified` —
the differ renders null as `""` before the string comparison. -/
theorem oneSidedNull_cex :
    Value.isna Value.null = true ∧
    Value.isna (Value.str "") = false ∧
    changedCell true Value.null (Value.str "") = false ∧
    keyMem dfEmptyStrNew "1" = true ∧
    keyMem dfNullOld "1" = true ∧
    (compare_df dfEmptyStrNew dfNullOld true).map DiffRow.changeType = ["Unchanged"] := by
  decide

/-- C1 as amended: a both-null column contributes no change; a
one-sided-null column counts as a change exactly when the non-null
side's case-folded stringification is non-empty (the differ substitutes
`""` for the null side before comparing, so null against the empty
string is not a change); and a row with a key present in both datasets
and at least one changed column is classified `Modified`. -/
theorem oneSidedNull_change_iff (cs : Bool) (old new : Value) :
    (old.isna = true → new.isna = true → changedCell cs old new = false) ∧
    (old.isna = true → new.isna = false →
      (changedCell cs old new = true ↔ caseFold cs (strOf new) ≠ "")) ∧
    (old.isna = false → new.isna = true →
      (changedCell cs old new = true ↔ caseFold cs (strOf old) ≠ "")) ∧
    (∀ (df1 df2 : DF) (dr : DiffRow), dr ∈ compare_df df1 df2 cs →
      keyMem df2 dr.key = true → keyMem df1 dr.key = true →
      rowChanged cs (indexUnion df1.cols df2.cols)
        (locRow df2 (indexUnion df1.cols df2.cols) dr.key)
        (locRow df1 (indexUnion df1.cols df2.cols) dr.key) = true →
      dr.changeType = "Modified") := by
  refine ⟨?_, ?_, ?_, ?_⟩
  · intro ho hn
    simp [changedCell, ho, hn]
  · intro ho hn
    have hold : old = Value.null := by
      cases old <;> simp_all [Value.isna]
    subst hold
    cases new with
    | null => simp [Value.isna] at hn
    | str s =>
      simp [changedCell, Value.isna, strOf, caseFold_empty, bne_iff_ne, ne_comm]
    | num n =>
      simp [changedCell, Value.isna, strOf, caseFold_empty, bne_iff_ne, ne_comm]
  · intro ho hn
    have hnew : new = Value.null := by
      cases new <;> simp_all [Value.isna]
    subst hnew
    cases old with
    | null => simp [Value.isna] at ho
    | str s =>
      simp [changedCell, Value.isna, strOf, caseFold_empty, bne_iff_ne, ne_comm]
    | num n =>
      simp [changedCell, Value.isna, strOf, caseFold_empty, bne_iff_ne, ne_comm]
  · intro df1 df2 dr h h2 h1 hch
    exact changeType_eq_modified h h2 h1 hch

/-- Witness for the amended C1: null against the non-empty string
`"x"` is a change. -/
theorem oneSidedNull_change_iff_witness :
    changedCell true Value.null (Value.str "x") = true ↔
      caseFold true (strOf (Value.str "x")) ≠ "" :=
  (oneSidedNull_change_iff true Value.null (Value.str "x")).2.1 (by decide) (by decide)

theorem exceptFilter_error {p : Row → Except Unit Bool} {l : List Row}
    (h : ∃ r ∈ l, p r = Except.error ()) : exceptFilter p l = Except.error () := by
  induction l with
  | nil => simp at h
  | cons x xs ih =>
    obtain ⟨r, hr, hpr⟩ := h
    rcases List.mem_cons.mp hr with rfl | hr'
    · simp [exceptFilter, hpr]
    · cases hpx : p x with
      | error u =>
        cases u
        simp [exceptFilter, hpx]
      | ok b =>
        have herr : exceptFilter p xs = Except.error () := ih ⟨r, hr', hpr⟩
        simp [exceptFilter, hpx, herr]

/-- C7: the filter value is cast before comparison: when the trimmed
text parses as a number the casted value is that number (so the
relational operators compare numerically against the column's native
value), otherwise it is the stripped text; and the `contains` pattern is
the stringification of the already-cast value, so the text `"007"`
yields the pattern `"7"`. -/
theorem filter_cast_then_compare (df : RawDF) (c v : String) (cs : Bool)
    (hc : df.cols.contains c = true) :
    (∀ n : Int, parseNum v = some n → castVal v = Value.num n) ∧
    (parseNum v = none → castVal v = Value.str (trimStr v)) ∧
    applyFilter df ⟨c, "==", v, cs, false⟩ =
      Except.ok ⟨df.cols, df.rows.filter (fun r => valEq (rowGet r c) (castVal v))⟩ ∧
    applyFilter df ⟨c, "contains", v, cs, false⟩ =
      Except.ok ⟨df.cols, df.rows.filter
        (fun r => strTestContains (strOf (rowGet r c)) (strOf (castVal v)) cs)⟩ ∧
    strOf (castVal "007") = "7" := by
  have hm : c ∈ df.cols := by simpa using hc
  refine ⟨?_, ?_, ?_, ?_, ?_⟩
  · intro n h
    rw [castVal, h]
  · intro h
    rw [castVal, h]
  · simp [applyFilter, hm]
  · simp [applyFilter, hm]
  · decide

/-- Witness for C7 on the dataset `rdfMixed` and value `"5"`. -/
theorem filter_cast_then_compare_witness : strOf (castVal "007") = "7" :=
  (filter_cast_then_compare rdfMixed "a" "5" false (by decide)).2.2.2.2

/-- C8: a filter naming a column absent from the dataset fails with an
error carrying that column name; an ordering filter over a cell whose
comparison raises a type error fails the same way; a failing filter
aborts the whole `apply_filters` run with that error; and every run is
all-or-nothing — it either fails with an error or returns a complete
filtered dataset. -/
theorem filter_errors_abort (df : RawDF) (f : RowFilter) (fs : List RowFilter) :
    (df.cols.contains f.col = false → applyFilter df f = Except.error f.col) ∧
    (f.op = ">" → df.cols.contains f.col = true →
      (∃ r ∈ df.rows, valGt (rowGet r f.col) (castVal f.val) = Except.error ()) →
      applyFilter df f = Except.error f.col) ∧
    (∀ e : String, applyFilter df f = Except.error e →
      apply_filters df (f :: fs) = Except.error e) ∧
    ((∃ e : String, apply_filters df fs = Except.error e) ∨
     (∃ out : RawDF, apply_filters df fs = Except.ok out)) := by
  refine ⟨?_, ?_, ?_, ?_⟩
  · intro h
    have hnm : ¬ f.col ∈ df.cols := by simpa using h
    simp [applyFilter, hnm]
  · obtain ⟨col, op, val, cse, rgx⟩ := f
    intro hop hc hex
    subst hop
    have hm : col ∈ df.cols := by simpa using hc
    have herr := exceptFilter_error hex
    simp [applyFilter, hm, herr]
  · intro e h
    have hstep : apply_filters df (f :: fs) =
        (applyFilter df f).bind (fun x => List.foldlM applyFilter x fs) := rfl
    rw [hstep, h]
    rfl
  · cases h : apply_filters df fs with
    | error e => exact Or.inl ⟨e, rfl⟩
    | ok out => exact Or.inr ⟨out, rfl⟩

/-- Witness for C8: on `rdfMixed`, the filter `a > 5` hits the string
cell `"x"`, whose ordering against the number 5 is a type error, and the
filter fails naming column `a`. -/
theorem filter_errors_abort_witness :
    applyFilter rdfMixed ⟨"a", ">", "5", false, false⟩ = Except.error "a" :=
  (filter_errors_abort rdfMixed ⟨"a", ">", "5", false, false⟩ []).2.1 rfl (by decide)
    ⟨[("a", Value.str "x")], by decide, rfl⟩

/-- C10: for `contains`/`not contains`, a null cell is stringified to
the literal text `"nan"` before the test: the row survives `contains`
exactly when the pattern occurs in `"nan"`, and survives `not contains`
exactly when it does not — a null cell is never unconditionally dropped
or kept. -/
theorem contains_null_as_nan (df : RawDF) (c v : String) (cs : Bool) (r : Row)
    (hc : df.cols.contains c = true) (hr : rowGet r c = Value.null) (hm : r ∈ df.rows) :
    (∀ out : RawDF, applyFilter df ⟨c, "contains", v, cs, false⟩ = Except.ok out →
      (r ∈ out.rows ↔ strTestContains "nan" (strOf (castVal v)) cs = true)) ∧
    (∀ out : RawDF, applyFilter df ⟨c, "not contains", v, cs, false⟩ = Except.ok out →
      (r ∈ out.rows ↔ ¬ strTestContains "nan" (strOf (castVal v)) cs = true)) := by
  have hm0 : c ∈ df.cols := by simpa using hc
  have happ1 : applyFilter df ⟨c, "contains", v, cs, false⟩ =
      Except.ok ⟨df.cols, df.rows.filter
        (fun r => strTestContains (strOf (rowGet r c)) (strOf (castVal v)) cs)⟩ := by
    simp [applyFilter, hm0]
  have happ2 : applyFilter df ⟨c, "not contains", v, cs, false⟩ =
      Except.ok ⟨df.cols, df.rows.filter
        (fun r => !(strTestContains (strOf (rowGet r c)) (strOf (castVal v)) cs))⟩ := by
    simp [applyFilter, hm0]
  constructor
  · intro out hout
    rw [happ1] at hout
    have hout' := Except.ok.inj hout
    subst hout'
    simp [List.mem_filter, hm, hr, strOf]
  · intro out hout
    rw [happ2] at hout
    have hout' := Except.ok.inj hout
    subst hout'
    simp [List.mem_filter, hm, hr, strOf]

/-- Witness for C10: on `rdfNull` the pattern `"na"` occurs in `"nan"`,
so the null-celled row survives the `contains` filter. -/
theorem contains_null_as_nan_witness :
    (([("a", Value.null)] : Row) ∈
        (⟨["a"], [[("a", Value.null)]]⟩ : RawDF).rows ↔
      strTestContains "nan" (strOf (castVal "na")) false = true) :=
  (contains_null_as_nan rdfNull "a" "na" false [("a", Value.null)]
      (by decide) (by decide) (by decide)).1
    ⟨["a"], [[("a", Value.null)]]⟩ rfl
